import Mathlib

/-
Shallow embedding of `src/06-objects-tasks.js` (the `cssSelectorBuilder`
facade with its `Builder` class and `Combiner`), together with proofs about
the selector builder's ordering-validation state machine and its string
rendering.

Modelling conventions:
* JS methods that mutate `this` and may `throw` become functions
  `Builder → ... → Builder × Option BuilderError`: the first component is the
  state of the object after the call (JS mutations performed before a throw
  are visible there), the second is the raised error, if any.
* The two `throw new Error(...)` sites are distinguished by an inductive
  error type: `duplicate` for the "should not occur more then one time"
  message, `orderViolation` for the "arranged in the following order"
  message.
* JS truthiness of the optional string fields (`undefined` and `''` are
  falsy) is modelled by `truthy` below.
* `stringify` reads `this` without writing; it is still given the
  state-passing shape `Builder → Builder × String` so that read-only-ness is
  a provable statement rather than a modelling artifact.
-/

/-- The two error kinds thrown by the builder (`duplicate` is the
"Element, id and pseudo-element should not occur more then one time inside
the selector" message, `orderViolation` the "Selector parts should be
arranged in the following order: ..." message). -/
inductive BuilderError where
  | duplicate
  | orderViolation
deriving DecidableEq, Repr

/-- JS truthiness of an optional string field: `undefined` (`none`) and the
empty string are falsy, every other string is truthy. -/
def truthy : Option String → Bool
  | none => false
  | some s => !s.isEmpty

/-- State of a `Builder` instance (class `Builder` in the source).
`sElement`, `sId`, `sPseudoE` start out `undefined` (`none`); `sClass`,
`sAttr`, `sPseudo` start `[]`; `state` is the `new Array(6).fill(false)`
touched-stage array.  The source's `stateVars` constant maps
sElement↦0, sId↦1, sClass↦2, sAttr↦3, sPseudo↦4, sPseudoE↦5; those literal
stage indices are used at the call sites below. -/
structure Builder where
  sElement : Option String
  sId : Option String
  sPseudoE : Option String
  sClass : List String
  sAttr : List String
  sPseudo : List String
  state : List Bool
deriving DecidableEq, Repr

/-- The `Builder` constructor. -/
def Builder.init : Builder :=
  { sElement := none, sId := none, sPseudoE := none,
    sClass := [], sAttr := [], sPseudo := [],
    state := List.replicate 6 false }

/-- `checkState(i)`: sets `state[i] = true`, then scans every later index
`j > i`; if any later stage was already touched it throws the
order-violation error.  The mutation to `state` is visible in the returned
builder even when the error is raised. -/
def Builder.checkState (b : Builder) (i : Nat) : Builder × Option BuilderError :=
  let st := b.state.set i true
  let b' := { b with state := st }
  if (st.drop (i + 1)).any id then (b', some BuilderError.orderViolation)
  else (b', none)

/-- `element(v)`: duplicate check on the truthiness of `sElement`, then
assignment `sElement = v` followed by `checkState(0)`. -/
def Builder.element (b : Builder) (v : String) : Builder × Option BuilderError :=
  if truthy b.sElement then (b, some BuilderError.duplicate)
  else Builder.checkState { b with sElement := some v } 0

/-- `id(v)`: duplicate check on `sId`, assignment, `checkState(1)`. -/
def Builder.id (b : Builder) (v : String) : Builder × Option BuilderError :=
  if truthy b.sId then (b, some BuilderError.duplicate)
  else Builder.checkState { b with sId := some v } 1

/-- `class(v)`: `sClass.push(v)` then `checkState(2)`; no duplicate check. -/
def Builder.«class» (b : Builder) (v : String) : Builder × Option BuilderError :=
  Builder.checkState { b with sClass := b.sClass ++ [v] } 2

/-- `attr(v)`: `sAttr.push(v)` then `checkState(3)`. -/
def Builder.attr (b : Builder) (v : String) : Builder × Option BuilderError :=
  Builder.checkState { b with sAttr := b.sAttr ++ [v] } 3

/-- `pseudoClass(v)`: `sPseudo.push(v)` then `checkState(4)`. -/
def Builder.pseudoClass (b : Builder) (v : String) : Builder × Option BuilderError :=
  Builder.checkState { b with sPseudo := b.sPseudo ++ [v] } 4

/-- `pseudoElement(v)`: duplicate check on `sPseudoE`, assignment,
`checkState(5)`. -/
def Builder.pseudoElement (b : Builder) (v : String) : Builder × Option BuilderError :=
  if truthy b.sPseudoE then (b, some BuilderError.duplicate)
  else Builder.checkState { b with sPseudoE := some v } 5

/-- `stringify()`: builds the selector string by conditional appends, in the
source's order.  It performs no field writes, so the returned builder is the
receiver unchanged. -/
def Builder.stringify (b : Builder) : Builder × String :=
  let r0 := ""
  let r1 := if truthy b.sElement then r0 ++ b.sElement.getD "" else r0
  let r2 := if truthy b.sId then r1 ++ ("#" ++ b.sId.getD "") else r1
  let r3 := if 0 < b.sClass.length then
    r2 ++ String.join (b.sClass.map (fun c => "." ++ c)) else r2
  let r4 := if 0 < b.sAttr.length then
    r3 ++ String.join (b.sAttr.map (fun a => "[" ++ a ++ "]")) else r3
  let r5 := if 0 < b.sPseudo.length then
    r4 ++ String.join (b.sPseudo.map (fun p => ":" ++ p)) else r4
  let r6 := if truthy b.sPseudoE then r5 ++ ("::" ++ b.sPseudoE.getD "") else r5
  (b, r6)

/-- A fragment-addition request: one call to one of the six mutating facade
entry points, with its string argument. -/
inductive Frag where
  | element (v : String)
  | id (v : String)
  | cls (v : String)
  | attr (v : String)
  | pseudoClass (v : String)
  | pseudoElement (v : String)
deriving DecidableEq, Repr

/-- The ordering stage of a fragment, as in the source's `stateVars`. -/
def Frag.stage : Frag → Nat
  | .element _ => 0
  | .id _ => 1
  | .cls _ => 2
  | .attr _ => 3
  | .pseudoClass _ => 4
  | .pseudoElement _ => 5

/-- Dispatch one fragment addition to the corresponding builder method. -/
def Builder.applyFrag (b : Builder) : Frag → Builder × Option BuilderError
  | .element v => b.element v
  | .id v => b.id v
  | .cls v => b.«class» v
  | .attr v => b.attr v
  | .pseudoClass v => b.pseudoClass v
  | .pseudoElement v => b.pseudoElement v

/-- Run a sequence of fragment additions on a builder.  A raised error stops
the chain (the exception propagates), but the builder state at that moment
is kept, matching the in-place mutation of the JS object. -/
def runFrags (b : Builder) : List Frag → Builder × Option BuilderError
  | [] => (b, none)
  | f :: fs =>
    match b.applyFrag f with
    | (b', none) => runFrags b' fs
    | (b', some e) => (b', some e)

/-- The element values of a fragment sequence, in order. -/
def elVals : List Frag → List String
  | [] => []
  | .element v :: fs => v :: elVals fs
  | _ :: fs => elVals fs

/-- The id values of a fragment sequence, in order. -/
def idVals : List Frag → List String
  | [] => []
  | .id v :: fs => v :: idVals fs
  | _ :: fs => idVals fs

/-- The class values of a fragment sequence, in order. -/
def clsVals : List Frag → List String
  | [] => []
  | .cls v :: fs => v :: clsVals fs
  | _ :: fs => clsVals fs

/-- The attribute values of a fragment sequence, in order. -/
def attrVals : List Frag → List String
  | [] => []
  | .attr v :: fs => v :: attrVals fs
  | _ :: fs => attrVals fs

/-- The pseudo-class values of a fragment sequence, in order. -/
def pcVals : List Frag → List String
  | [] => []
  | .pseudoClass v :: fs => v :: pcVals fs
  | _ :: fs => pcVals fs

/-- The pseudo-element values of a fragment sequence, in order. -/
def peVals : List Frag → List String
  | [] => []
  | .pseudoElement v :: fs => v :: peVals fs
  | _ :: fs => peVals fs

/-- The rendered contribution of an optional single-valued fragment: its
prefix followed by the value when the stored value is truthy, nothing
otherwise. -/
def optPiece (pre : String) (o : Option String) : String :=
  if truthy o then pre ++ o.getD "" else ""

/-- Whether the duplicate guard of `element`/`id`/`pseudoElement` fires for
this fragment on this builder (the guard tests JS truthiness of the stored
field; `class`/`attr`/`pseudoClass` have no such guard). -/
def dupBlocked (b : Builder) : Frag → Bool
  | .element _ => truthy b.sElement
  | .id _ => truthy b.sId
  | .pseudoElement _ => truthy b.sPseudoE
  | _ => false

/-- A renderable selector expression: either a (state of a) `Builder`, or a
combination of two renderables with a combinator symbol (the shape a
`Combiner` holds after `combine` assigned its fields). -/
inductive Renderable where
  | sel (b : Builder)
  | comb (s1 : Renderable) (combiner : String) (s2 : Renderable)
deriving DecidableEq, Repr

/-- `stringify()` of a renderable: a builder renders via
`Builder.stringify`; a combination renders as
`s1.stringify() + ' ' + combiner + ' ' + s2.stringify()` (the body of
`MyCombiner`'s `stringify`). -/
def Renderable.stringify : Renderable → String
  | .sel b => (b.stringify).2
  | .comb s1 c s2 => s1.stringify ++ " " ++ c ++ " " ++ s2.stringify

/-- State of a `MyCombiner` object after its `combine` method has assigned
the three fields `s1`, `combiner`, `s2`. -/
structure Combiner where
  s1 : Renderable
  combiner : String
  s2 : Renderable
deriving DecidableEq, Repr

/-- The `combine` method of a `MyCombiner` object: assigns all three fields
of the receiver (discarding whatever was stored) and returns `this`. -/
def Combiner.combine (_c : Combiner) (a : Renderable) (sym : String)
    (b : Renderable) : Combiner :=
  { s1 := a, combiner := sym, s2 := b }

/-- `stringify()` of a combiner; reads the three fields, writes nothing. -/
def Combiner.stringify (c : Combiner) : Combiner × String :=
  (c, c.s1.stringify ++ " " ++ c.combiner ++ " " ++ c.s2.stringify)

/-- A combiner used as an operand of an outer combination (JS passes the
object itself; only its `stringify` is consumed). -/
def Combiner.toRenderable (c : Combiner) : Renderable :=
  .comb c.s1 c.combiner c.s2

/-- The facade's `combine(s1, symbol, s2)`: creates a fresh `MyCombiner`
and delegates to its `combine` method, which assigns all three fields; the
fresh object's pre-assignment contents are never observable, so the
delegation is applied to the fully-assigned state. -/
def cssCombine (a : Renderable) (sym : String) (b : Renderable) : Combiner :=
  Combiner.combine { s1 := a, combiner := sym, s2 := b } a sym b

/-- Follows the spec's §4.1 wording for `render()`: concatenation, in fixed
order, of element (as-is), id (prefixed `#`), each class (prefixed `.`, in
insertion order, no separator), each attribute (wrapped in `[ ]`), each
pseudo-class (prefixed `:`), pseudo-element (prefixed `::`); an absent or
empty part contributes nothing. -/
def renderSpec (b : Builder) : String :=
  (b.sElement.getD "")
  ++ (match b.sId with | none => "" | some s => if s = "" then "" else "#" ++ s)
  ++ String.join (b.sClass.map (fun c => "." ++ c))
  ++ String.join (b.sAttr.map (fun a => "[" ++ a ++ "]"))
  ++ String.join (b.sPseudo.map (fun p => ":" ++ p))
  ++ (match b.sPseudoE with | none => "" | some s => if s = "" then "" else "::" ++ s)

/-- A whitespace character (the usual space, tab, newline, carriage
return). -/
def isWS (c : Char) : Bool := c == ' ' || c == '\t' || c == '\n' || c == '\r'

/-- A string with no leading and no trailing whitespace. -/
def noEdgeWS (s : String) : Bool :=
  (s.data.head?.all (fun c => !isWS c)) && (s.data.getLast?.all (fun c => !isWS c))

/-- Every value stored in the builder is free of leading and trailing
whitespace. -/
def trimmedVals (b : Builder) : Bool :=
  (b.sElement.all noEdgeWS) && (b.sId.all noEdgeWS) && (b.sPseudoE.all noEdgeWS)
    && b.sClass.all noEdgeWS && b.sAttr.all noEdgeWS && b.sPseudo.all noEdgeWS

/-- A sample fragment sequence used to instantiate the sorted-run theorem. -/
def sampleFrags : List Frag :=
  [Frag.element "a", Frag.id "main", Frag.cls "x", Frag.cls "x",
    Frag.attr "k", Frag.pseudoClass "f", Frag.pseudoElement "w"]

lemma ite_append_else_self (c : Prop) [Decidable c] (r x : String) :
    (if c then r ++ x else r) = r ++ (if c then x else "") := by
  split <;> simp

lemma ite_len_append (l : List String) (f : String → String) (r : String) :
    (if 0 < l.length then r ++ String.join (l.map f) else r)
      = r ++ String.join (l.map f) := by
  cases l with
  | nil => simp [String.join]
  | cons a t => simp

/-- Decomposition of `stringify` into the six unconditional pieces. -/
lemma stringify_snd (b : Builder) : (b.stringify).2 =
    optPiece "" b.sElement ++ optPiece "#" b.sId
    ++ String.join (b.sClass.map (fun c => "." ++ c))
    ++ String.join (b.sAttr.map (fun a => "[" ++ a ++ "]"))
    ++ String.join (b.sPseudo.map (fun p => ":" ++ p))
    ++ optPiece "::" b.sPseudoE := by
  simp only [Builder.stringify]
  rw [ite_append_else_self]
  rw [ite_len_append]
  rw [ite_len_append]
  rw [ite_len_append]
  rw [ite_append_else_self]
  rw [ite_append_else_self]
  simp [optPiece, String.append_assoc]

/-- The source's `stringify` agrees with the spec's §4.1 rendering clause on
every builder state. -/
lemma stringify_eq_renderSpec (b : Builder) : (b.stringify).2 = renderSpec b := by
  rw [stringify_snd]
  unfold renderSpec
  congr 1
  · congr 1
    · congr 1
      · congr 1
        · congr 1
          · -- element piece
            cases h : b.sElement with
            | none => simp [optPiece, truthy]
            | some s =>
              by_cases hs : s = "" <;>
                simp [optPiece, truthy, hs, String.isEmpty_iff]
          · -- id piece
            cases h : b.sId with
            | none => simp [optPiece, truthy]
            | some s =>
              by_cases hs : s = "" <;>
                simp [optPiece, truthy, hs, String.isEmpty_iff]
  · -- pseudo-element piece
    cases h : b.sPseudoE with
    | none => simp [optPiece, truthy]
    | some s =>
      by_cases hs : s = "" <;>
        simp [optPiece, truthy, hs, String.isEmpty_iff]

/-- Setting an index strictly below the drop point does not change the
dropped suffix. -/
lemma drop_set_of_lt {α : Type} (v : α) :
    ∀ (l : List α) (i j : Nat), i < j → (l.set i v).drop j = l.drop j := by
  intro l
  induction l with
  | nil => intro i j _; rfl
  | cons a t ih =>
    intro i j hij
    cases i with
    | zero =>
      cases j with
      | zero => omega
      | succ j' => simp [List.set]
    | succ i' =>
      cases j with
      | zero => omega
      | succ j' =>
        simp only [List.set, List.drop_succ_cons]
        exact ih i' j' (by omega)

/-- Reading back an in-range index just set. -/
lemma getD_set_self {α : Type} (d v : α) :
    ∀ (l : List α) (i : Nat), i < l.length → (l.set i v).getD i d = v := by
  intro l
  induction l with
  | nil => intro i h; simp at h
  | cons a t ih =>
    intro i h
    cases i with
    | zero => rfl
    | succ i' =>
      simp only [List.set, List.getD, List.get?_cons_succ]
      exact ih i' (by simpa using h)

/-- If the suffix from `k` contains a `true`, then `k` is in range. -/
lemma lt_length_of_drop_any (l : List Bool) (k : Nat)
    (h : (l.drop k).any id = true) : k < l.length := by
  by_contra hk
  have hnil : l.drop k = [] := List.drop_eq_nil_of_le (by omega)
  rw [hnil] at h
  simp at h

/-- Every dropped suffix of the all-false array is all-false. -/
lemma any_drop_replicate_false (n k : Nat) :
    ((List.replicate n false).drop k).any id = false := by
  rw [List.any_eq_false]
  intro x hx
  have hx' : x ∈ List.replicate n false := List.mem_of_mem_drop hx
  have := List.eq_of_mem_replicate hx'
  simp [this]

/-- Closed form of `checkState`. -/
lemma checkState_eq (b : Builder) (i : Nat) :
    b.checkState i =
      ({ b with state := b.state.set i true },
        if ((b.state.set i true).drop (i + 1)).any id then
          some BuilderError.orderViolation
        else none) := by
  simp only [Builder.checkState]
  by_cases h : ((b.state.set i true).drop (i + 1)).any id = true
  · simp [h]
  · simp [h]

/-- Running a stage-sorted fragment sequence with at most one `element`,
`id` and `pseudoElement` raises no error, and the final fields are the input
fields extended by the sequence's values in order. -/
lemma runFrags_sorted_ok :
    ∀ (fs : List Frag) (b : Builder),
      List.Sorted (· ≤ ·) (fs.map Frag.stage) →
      (∀ f ∈ fs, ((b.state.drop (f.stage + 1)).any id) = false) →
      (elVals fs).length ≤ 1 → (idVals fs).length ≤ 1 → (peVals fs).length ≤ 1 →
      (elVals fs ≠ [] → truthy b.sElement = false) →
      (idVals fs ≠ [] → truthy b.sId = false) →
      (peVals fs ≠ [] → truthy b.sPseudoE = false) →
      (runFrags b fs).2 = none ∧
      (runFrags b fs).1.sElement = ((elVals fs).head?).elim b.sElement some ∧
      (runFrags b fs).1.sId = ((idVals fs).head?).elim b.sId some ∧
      (runFrags b fs).1.sPseudoE = ((peVals fs).head?).elim b.sPseudoE some ∧
      (runFrags b fs).1.sClass = b.sClass ++ clsVals fs ∧
      (runFrags b fs).1.sAttr = b.sAttr ++ attrVals fs ∧
      (runFrags b fs).1.sPseudo = b.sPseudo ++ pcVals fs := by
  intro fs
  induction fs with
  | nil =>
    intro b _ _ _ _ _ _ _ _
    simp [runFrags, elVals, idVals, peVals, clsVals, attrVals, pcVals]
  | cons f fs ih =>
    intro b hsort hinv hel1 hid1 hpe1 hel hid hpe
    rw [List.map_cons, List.sorted_cons] at hsort
    obtain ⟨hall, hsort'⟩ := hsort
    cases f with
    | element v =>
      have htr : truthy b.sElement = false := hel (by simp [elVals])
      have hc : ((({ b with sElement := some v } : Builder).state.set 0 true).drop (0 + 1)).any id
          = false := by
        rw [show ({ b with sElement := some v } : Builder).state = b.state from rfl]
        rw [drop_set_of_lt true b.state 0 (0 + 1) (by omega)]
        simpa [Frag.stage] using hinv (Frag.element v) (List.mem_cons_self _ _)
      have hstep : b.applyFrag (Frag.element v)
          = ({ b with sElement := some v, state := b.state.set 0 true }, none) := by
        simp only [Builder.applyFrag, Builder.element, htr, Bool.false_eq_true, if_false]
        rw [checkState_eq]
        simp only [hc, Bool.false_eq_true, if_false]
      have hrun : runFrags b (Frag.element v :: fs)
          = runFrags { b with sElement := some v, state := b.state.set 0 true } fs := by
        simp only [runFrags, hstep]
      have helnil : elVals fs = [] := by
        simp only [elVals, List.length_cons] at hel1
        exact List.length_eq_zero.mp (by omega)
      obtain ⟨e1, e2, e3, e4, e5, e6, e7⟩ :=
        ih { b with sElement := some v, state := b.state.set 0 true } hsort'
          (by
            intro g hg
            show (((b.state.set 0 true).drop (g.stage + 1)).any id) = false
            rw [drop_set_of_lt true b.state 0 (g.stage + 1) (by omega)]
            exact hinv g (List.mem_cons_of_mem _ hg))
          (by simp [helnil])
          (by simpa [idVals] using hid1)
          (by simpa [peVals] using hpe1)
          (fun h => absurd helnil h)
          (fun h => hid (by simpa [idVals] using h))
          (fun h => hpe (by simpa [peVals] using h))
      rw [hrun]
      refine ⟨e1, ?_, ?_, ?_, ?_, ?_, ?_⟩
      · rw [e2]; simp [elVals, helnil]
      · rw [e3]; simp [idVals]
      · rw [e4]; simp [peVals]
      · rw [e5]; simp [clsVals]
      · rw [e6]; simp [attrVals]
      · rw [e7]; simp [pcVals]
    | id v =>
      have htr : truthy b.sId = false := hid (by simp [idVals])
      have hc : ((({ b with sId := some v } : Builder).state.set 1 true).drop (1 + 1)).any id
          = false := by
        rw [show ({ b with sId := some v } : Builder).state = b.state from rfl]
        rw [drop_set_of_lt true b.state 1 (1 + 1) (by omega)]
        simpa [Frag.stage] using hinv (Frag.id v) (List.mem_cons_self _ _)
      have hstep : b.applyFrag (Frag.id v)
          = ({ b with sId := some v, state := b.state.set 1 true }, none) := by
        simp only [Builder.applyFrag, Builder.id, htr, Bool.false_eq_true, if_false]
        rw [checkState_eq]
        simp only [hc, Bool.false_eq_true, if_false]
      have hrun : runFrags b (Frag.id v :: fs)
          = runFrags { b with sId := some v, state := b.state.set 1 true } fs := by
        simp only [runFrags, hstep]
      have hidnil : idVals fs = [] := by
        simp only [idVals, List.length_cons] at hid1
        exact List.length_eq_zero.mp (by omega)
      obtain ⟨e1, e2, e3, e4, e5, e6, e7⟩ :=
        ih { b with sId := some v, state := b.state.set 1 true } hsort'
          (by
            intro g hg
            have hk2 : (1:Nat) ≤ g.stage := hall g.stage (List.mem_map_of_mem _ hg)
            show (((b.state.set 1 true).drop (g.stage + 1)).any id) = false
            rw [drop_set_of_lt true b.state 1 (g.stage + 1) (by omega)]
            exact hinv g (List.mem_cons_of_mem _ hg))
          (by simpa [elVals] using hel1)
          (by simp [hidnil])
          (by simpa [peVals] using hpe1)
          (fun h => hel (by simpa [elVals] using h))
          (fun h => absurd hidnil h)
          (fun h => hpe (by simpa [peVals] using h))
      rw [hrun]
      refine ⟨e1, ?_, ?_, ?_, ?_, ?_, ?_⟩
      · rw [e2]; simp [elVals]
      · rw [e3]; simp [idVals, hidnil]
      · rw [e4]; simp [peVals]
      · rw [e5]; simp [clsVals]
      · rw [e6]; simp [attrVals]
      · rw [e7]; simp [pcVals]
    | cls v =>
      have hc : ((({ b with sClass := b.sClass ++ [v] } : Builder).state.set 2 true).drop (2 + 1)).any id
          = false := by
        rw [show ({ b with sClass := b.sClass ++ [v] } : Builder).state = b.state from rfl]
        rw [drop_set_of_lt true b.state 2 (2 + 1) (by omega)]
        simpa [Frag.stage] using hinv (Frag.cls v) (List.mem_cons_self _ _)
      have hstep : b.applyFrag (Frag.cls v)
          = ({ b with sClass := b.sClass ++ [v], state := b.state.set 2 true }, none) := by
        simp only [Builder.applyFrag, Builder.«class»]
        rw [checkState_eq]
        simp only [hc, Bool.false_eq_true, if_false]
      have hrun : runFrags b (Frag.cls v :: fs)
          = runFrags { b with sClass := b.sClass ++ [v], state := b.state.set 2 true } fs := by
        simp only [runFrags, hstep]
      obtain ⟨e1, e2, e3, e4, e5, e6, e7⟩ :=
        ih { b with sClass := b.sClass ++ [v], state := b.state.set 2 true } hsort'
          (by
            intro g hg
            have hk2 : (2:Nat) ≤ g.stage := hall g.stage (List.mem_map_of_mem _ hg)
            show (((b.state.set 2 true).drop (g.stage + 1)).any id) = false
            rw [drop_set_of_lt true b.state 2 (g.stage + 1) (by omega)]
            exact hinv g (List.mem_cons_of_mem _ hg))
          (by simpa [elVals] using hel1)
          (by simpa [idVals] using hid1)
          (by simpa [peVals] using hpe1)
          (fun h => hel (by simpa [elVals] using h))
          (fun h => hid (by simpa [idVals] using h))
          (fun h => hpe (by simpa [peVals] using h))
      rw [hrun]
      refine ⟨e1, ?_, ?_, ?_, ?_, ?_, ?_⟩
      · rw [e2]; simp [elVals]
      · rw [e3]; simp [idVals]
      · rw [e4]; simp [peVals]
      · rw [e5]; simp [clsVals]
      · rw [e6]; simp [attrVals]
      · rw [e7]; simp [pcVals]
    | attr v =>
      have hc : ((({ b with sAttr := b.sAttr ++ [v] } : Builder).state.set 3 true).drop (3 + 1)).any id
          = false := by
        rw [show ({ b with sAttr := b.sAttr ++ [v] } : Builder).state = b.state from rfl]
        rw [drop_set_of_lt true b.state 3 (3 + 1) (by omega)]
        simpa [Frag.stage] using hinv (Frag.attr v) (List.mem_cons_self _ _)
      have hstep : b.applyFrag (Frag.attr v)
          = ({ b with sAttr := b.sAttr ++ [v], state := b.state.set 3 true }, none) := by
        simp only [Builder.applyFrag, Builder.attr]
        rw [checkState_eq]
        simp only [hc, Bool.false_eq_true, if_false]
      have hrun : runFrags b (Frag.attr v :: fs)
          = runFrags { b with sAttr := b.sAttr ++ [v], state := b.state.set 3 true } fs := by
        simp only [runFrags, hstep]
      obtain ⟨e1, e2, e3, e4, e5, e6, e7⟩ :=
        ih { b with sAttr := b.sAttr ++ [v], state := b.state.set 3 true } hsort'
          (by
            intro g hg
            have hk2 : (3:Nat) ≤ g.stage := hall g.stage (List.mem_map_of_mem _ hg)
            show (((b.state.set 3 true).drop (g.stage + 1)).any id) = false
            rw [drop_set_of_lt true b.state 3 (g.stage + 1) (by omega)]
            exact hinv g (List.mem_cons_of_mem _ hg))
          (by simpa [elVals] using hel1)
          (by simpa [idVals] using hid1)
          (by simpa [peVals] using hpe1)
          (fun h => hel (by simpa [elVals] using h))
          (fun h => hid (by simpa [idVals] using h))
          (fun h => hpe (by simpa [peVals] using h))
      rw [hrun]
      refine ⟨e1, ?_, ?_, ?_, ?_, ?_, ?_⟩
      · rw [e2]; simp [elVals]
      · rw [e3]; simp [idVals]
      · rw [e4]; simp [peVals]
      · rw [e5]; simp [clsVals]
      · rw [e6]; simp [attrVals]
      · rw [e7]; simp [pcVals]
    | pseudoClass v =>
      have hc : ((({ b with sPseudo := b.sPseudo ++ [v] } : Builder).state.set 4 true).drop (4 + 1)).any id
          = false := by
        rw [show ({ b with sPseudo := b.sPseudo ++ [v] } : Builder).state = b.state from rfl]
        rw [drop_set_of_lt true b.state 4 (4 + 1) (by omega)]
        simpa [Frag.stage] using hinv (Frag.pseudoClass v) (List.mem_cons_self _ _)
      have hstep : b.applyFrag (Frag.pseudoClass v)
          = ({ b with sPseudo := b.sPseudo ++ [v], state := b.state.set 4 true }, none) := by
        simp only [Builder.applyFrag, Builder.pseudoClass]
        rw [checkState_eq]
        simp only [hc, Bool.false_eq_true, if_false]
      have hrun : runFrags b (Frag.pseudoClass v :: fs)
          = runFrags { b with sPseudo := b.sPseudo ++ [v], state := b.state.set 4 true } fs := by
        simp only [runFrags, hstep]
      obtain ⟨e1, e2, e3, e4, e5, e6, e7⟩ :=
        ih { b with sPseudo := b.sPseudo ++ [v], state := b.state.set 4 true } hsort'
          (by
            intro g hg
            have hk2 : (4:Nat) ≤ g.stage := hall g.stage (List.mem_map_of_mem _ hg)
            show (((b.state.set 4 true).drop (g.stage + 1)).any id) = false
            rw [drop_set_of_lt true b.state 4 (g.stage + 1) (by omega)]
            exact hinv g (List.mem_cons_of_mem _ hg))
          (by simpa [elVals] using hel1)
          (by simpa [idVals] using hid1)
          (by simpa [peVals] using hpe1)
          (fun h => hel (by simpa [elVals] using h))
          (fun h => hid (by simpa [idVals] using h))
          (fun h => hpe (by simpa [peVals] using h))
      rw [hrun]
      refine ⟨e1, ?_, ?_, ?_, ?_, ?_, ?_⟩
      · rw [e2]; simp [elVals]
      · rw [e3]; simp [idVals]
      · rw [e4]; simp [peVals]
      · rw [e5]; simp [clsVals]
      · rw [e6]; simp [attrVals]
      · rw [e7]; simp [pcVals]
    | pseudoElement v =>
      have htr : truthy b.sPseudoE = false := hpe (by simp [peVals])
      have hc : ((({ b with sPseudoE := some v } : Builder).state.set 5 true).drop (5 + 1)).any id
          = false := by
        rw [show ({ b with sPseudoE := some v } : Builder).state = b.state from rfl]
        rw [drop_set_of_lt true b.state 5 (5 + 1) (by omega)]
        simpa [Frag.stage] using hinv (Frag.pseudoElement v) (List.mem_cons_self _ _)
      have hstep : b.applyFrag (Frag.pseudoElement v)
          = ({ b with sPseudoE := some v, state := b.state.set 5 true }, none) := by
        simp only [Builder.applyFrag, Builder.pseudoElement, htr, Bool.false_eq_true, if_false]
        rw [checkState_eq]
        simp only [hc, Bool.false_eq_true, if_false]
      have hrun : runFrags b (Frag.pseudoElement v :: fs)
          = runFrags { b with sPseudoE := some v, state := b.state.set 5 true } fs := by
        simp only [runFrags, hstep]
      have hpenil : peVals fs = [] := by
        simp only [peVals, List.length_cons] at hpe1
        exact List.length_eq_zero.mp (by omega)
      obtain ⟨e1, e2, e3, e4, e5, e6, e7⟩ :=
        ih { b with sPseudoE := some v, state := b.state.set 5 true } hsort'
          (by
            intro g hg
            have hk2 : (5:Nat) ≤ g.stage := hall g.stage (List.mem_map_of_mem _ hg)
            show (((b.state.set 5 true).drop (g.stage + 1)).any id) = false
            rw [drop_set_of_lt true b.state 5 (g.stage + 1) (by omega)]
            exact hinv g (List.mem_cons_of_mem _ hg))
          (by simpa [elVals] using hel1)
          (by simpa [idVals] using hid1)
          (by simp [hpenil])
          (fun h => hel (by simpa [elVals] using h))
          (fun h => hid (by simpa [idVals] using h))
          (fun h => absurd hpenil h)
      rw [hrun]
      refine ⟨e1, ?_, ?_, ?_, ?_, ?_, ?_⟩
      · rw [e2]; simp [elVals]
      · rw [e3]; simp [idVals]
      · rw [e4]; simp [peVals, hpenil]
      · rw [e5]; simp [clsVals]
      · rw [e6]; simp [attrVals]
      · rw [e7]; simp [pcVals]

lemma string_foldl_append (l : List String) :
    ∀ s : String, l.foldl (· ++ ·) s = s ++ l.foldl (· ++ ·) "" := by
  induction l with
  | nil => intro s; simp
  | cons a t ih =>
    intro s
    rw [List.foldl_cons, List.foldl_cons, ih, ih ("" ++ a)]
    simp [String.append_assoc]

lemma join_cons_eq (a : String) (l : List String) :
    String.join (a :: l) = a ++ String.join l := by
  unfold String.join
  rw [List.foldl_cons, string_foldl_append]
  simp

lemma noEdgeWS_empty : noEdgeWS "" = true := by decide

lemma noEdgeWS_append (a b : String) (ha : noEdgeWS a = true)
    (hb : noEdgeWS b = true) : noEdgeWS (a ++ b) = true := by
  unfold noEdgeWS at ha hb ⊢
  rw [String.data_append]
  cases hda : a.data with
  | nil => simpa using hb
  | cons c t =>
    rw [hda] at ha
    cases hdb : b.data with
    | nil => rw [List.append_nil]; exact ha
    | cons d u =>
      rw [hdb] at hb
      simp only [Bool.and_eq_true] at ha hb
      have h2 : ((c :: t) ++ d :: u).getLast? = (d :: u).getLast? :=
        List.getLast?_append_of_ne_nil _ (by simp)
      rw [h2, Bool.and_eq_true]
      refine ⟨?_, hb.2⟩
      simpa using ha.1

lemma noEdgeWS_join (f : String → String) :
    ∀ l : List String, (∀ x ∈ l, noEdgeWS (f x) = true) →
      noEdgeWS (String.join (l.map f)) = true := by
  intro l
  induction l with
  | nil => intro _; exact noEdgeWS_empty
  | cons a t ih =>
    intro h
    rw [List.map_cons, join_cons_eq]
    exact noEdgeWS_append _ _ (h a (by simp)) (ih (fun x hx => h x (by simp [hx])))

lemma noEdgeWS_optPiece (pre : String) (o : Option String)
    (hpre : noEdgeWS pre = true) (ho : ∀ s, o = some s → noEdgeWS s = true) :
    noEdgeWS (optPiece pre o) = true := by
  unfold optPiece
  cases o with
  | none => simpa [truthy] using noEdgeWS_empty
  | some s =>
    cases hs : s.isEmpty with
    | true =>
      have hs' : s = "" := (String.isEmpty_iff s).mp hs
      subst hs'
      have h0 : truthy (some "") = false := by decide
      simpa [h0] using noEdgeWS_empty
    | false =>
      have h1 : truthy (some s) = true := by simp [truthy, hs]
      simp only [h1, if_true, Option.getD_some]
      exact noEdgeWS_append pre s hpre (ho s rfl)

/-- When every stored value is whitespace-trimmed, the rendered selector has
no leading or trailing whitespace. -/
lemma stringify_noEdgeWS (b : Builder) (h : trimmedVals b = true) :
    noEdgeWS ((b.stringify).2) = true := by
  rw [stringify_snd]
  unfold trimmedVals at h
  simp only [Bool.and_eq_true] at h
  obtain ⟨⟨⟨⟨⟨h1, h2⟩, h3⟩, h4⟩, h5⟩, h6⟩ := h
  have hopt : ∀ (o : Option String), o.all noEdgeWS = true →
      ∀ s, o = some s → noEdgeWS s = true := by
    intro o ho s hs
    rw [hs] at ho
    simpa using ho
  have hlist : ∀ (l : List String), l.all noEdgeWS = true →
      ∀ x ∈ l, noEdgeWS x = true := by
    intro l hl x hx
    rw [List.all_eq_true] at hl
    exact hl x hx
  refine noEdgeWS_append _ _ (noEdgeWS_append _ _ (noEdgeWS_append _ _
    (noEdgeWS_append _ _ (noEdgeWS_append _ _ ?_ ?_) ?_) ?_) ?_) ?_
  · exact noEdgeWS_optPiece _ _ noEdgeWS_empty (hopt _ h1)
  · exact noEdgeWS_optPiece _ _ (by decide) (hopt _ h2)
  · refine noEdgeWS_join _ _ (fun x hx => ?_)
    exact noEdgeWS_append _ _ (by decide) (hlist _ h4 x hx)
  · refine noEdgeWS_join _ _ (fun x hx => ?_)
    exact noEdgeWS_append _ _ (noEdgeWS_append _ _ (by decide) (hlist _ h5 x hx)) (by decide)
  · refine noEdgeWS_join _ _ (fun x hx => ?_)
    exact noEdgeWS_append _ _ (by decide) (hlist _ h6 x hx)
  · exact noEdgeWS_optPiece _ _ (by decide) (hopt _ h3)

lemma elim_none_some (o : Option String) : o.elim none some = o := by
  cases o <;> rfl

/-- `checkState` never reports the duplicate error. -/
lemma checkState_snd_ne_dup (b : Builder) (i : Nat) :
    (b.checkState i).2 ≠ some BuilderError.duplicate := by
  rw [checkState_eq]
  dsimp only
  split <;> simp

/-- C1 counterexample: after `element('a')` then `pseudoClass('hover')`
(stage 4 > 0), adding the stage-0 fragment `element('b')` raises the
duplicate error, not the order-violation error, so the claim as stated
fails. -/
theorem claim_C1_counterexample :
    (runFrags Builder.init
        [Frag.element "a", Frag.pseudoClass "hover", Frag.element "b"]).2
      = some BuilderError.duplicate ∧
    (runFrags Builder.init
        [Frag.element "a", Frag.pseudoClass "hover", Frag.element "b"]).2
      ≠ some BuilderError.orderViolation := by
  constructor
  · decide
  · decide

/-- C1 (amended): adding a fragment of stage K while some stage strictly
greater than K is already touched raises the order-violation error,
provided the call does not first fail the duplicate check (that is, unless
the fragment is an `element`/`id`/`pseudoElement` whose field already holds
a truthy value — then the duplicate error is raised instead).  In
particular the claim holds whenever stage K was never touched before. -/
theorem claim_C1_order_violation (b : Builder) (f : Frag)
    (hdup : dupBlocked b f = false)
    (hlater : ((b.state.drop (f.stage + 1)).any id) = true) :
    (b.applyFrag f).2 = some BuilderError.orderViolation := by
  cases f with
  | element v =>
    have htr : truthy b.sElement = false := hdup
    simp only [Builder.applyFrag, Builder.element, htr, Bool.false_eq_true, if_false]
    rw [checkState_eq]
    have hc : ((({ b with sElement := some v } : Builder).state.set 0 true).drop
        (0 + 1)).any id = true := by
      rw [show ({ b with sElement := some v } : Builder).state = b.state from rfl]
      rw [drop_set_of_lt true b.state 0 (0 + 1) (by omega)]
      exact hlater
    simp only [hc, if_true]
  | id v =>
    have htr : truthy b.sId = false := hdup
    simp only [Builder.applyFrag, Builder.id, htr, Bool.false_eq_true, if_false]
    rw [checkState_eq]
    have hc : ((({ b with sId := some v } : Builder).state.set 1 true).drop
        (1 + 1)).any id = true := by
      rw [show ({ b with sId := some v } : Builder).state = b.state from rfl]
      rw [drop_set_of_lt true b.state 1 (1 + 1) (by omega)]
      exact hlater
    simp only [hc, if_true]
  | cls v =>
    simp only [Builder.applyFrag, Builder.«class»]
    rw [checkState_eq]
    have hc : ((({ b with sClass := b.sClass ++ [v] } : Builder).state.set 2 true).drop
        (2 + 1)).any id = true := by
      rw [show ({ b with sClass := b.sClass ++ [v] } : Builder).state = b.state from rfl]
      rw [drop_set_of_lt true b.state 2 (2 + 1) (by omega)]
      exact hlater
    simp only [hc, if_true]
  | attr v =>
    simp only [Builder.applyFrag, Builder.attr]
    rw [checkState_eq]
    have hc : ((({ b with sAttr := b.sAttr ++ [v] } : Builder).state.set 3 true).drop
        (3 + 1)).any id = true := by
      rw [show ({ b with sAttr := b.sAttr ++ [v] } : Builder).state = b.state from rfl]
      rw [drop_set_of_lt true b.state 3 (3 + 1) (by omega)]
      exact hlater
    simp only [hc, if_true]
  | pseudoClass v =>
    simp only [Builder.applyFrag, Builder.pseudoClass]
    rw [checkState_eq]
    have hc : ((({ b with sPseudo := b.sPseudo ++ [v] } : Builder).state.set 4 true).drop
        (4 + 1)).any id = true := by
      rw [show ({ b with sPseudo := b.sPseudo ++ [v] } : Builder).state = b.state from rfl]
      rw [drop_set_of_lt true b.state 4 (4 + 1) (by omega)]
      exact hlater
    simp only [hc, if_true]
  | pseudoElement v =>
    have htr : truthy b.sPseudoE = false := hdup
    simp only [Builder.applyFrag, Builder.pseudoElement, htr, Bool.false_eq_true, if_false]
    rw [checkState_eq]
    have hc : ((({ b with sPseudoE := some v } : Builder).state.set 5 true).drop
        (5 + 1)).any id = true := by
      rw [show ({ b with sPseudoE := some v } : Builder).state = b.state from rfl]
      rw [drop_set_of_lt true b.state 5 (5 + 1) (by omega)]
      exact hlater
    simp only [hc, if_true]

/-- C1 witness: after `pseudoClass('p')` (stage 4), adding `element('a')`
(stage 0, untouched so far) raises the order-violation error. -/
theorem claim_C1_witness :
    dupBlocked ((Builder.init.pseudoClass "p").1) (Frag.element "a") = false ∧
    ((((Builder.init.pseudoClass "p").1).state.drop
        ((Frag.element "a").stage + 1)).any id) = true ∧
    (((Builder.init.pseudoClass "p").1).applyFrag (Frag.element "a")).2
      = some BuilderError.orderViolation :=
  ⟨by decide, by decide, claim_C1_order_violation _ _ (by decide) (by decide)⟩

/-- C2 counterexample: the stage sequence of `element('a'); element('b')`
is `[0, 0]`, non-decreasing, yet the second call raises the duplicate
error, so the claim as stated fails. -/
theorem claim_C2_counterexample :
    List.Sorted (· ≤ ·) (([Frag.element "a", Frag.element "b"]).map Frag.stage) ∧
    (runFrags Builder.init [Frag.element "a", Frag.element "b"]).2 ≠ none := by
  constructor
  · decide
  · decide

/-- C2 (amended): for every fragment sequence whose stage indices are
non-decreasing and which adds `element`, `id` and `pseudoElement` each at
most once, no call raises an error, and `render()` afterwards produces the
concatenation in the fixed order of §4.1 (element, `#id`, `.classes`,
`[attributes]`, `:pseudoClasses`, `::pseudoElement`) of the sequence's
values in insertion order. -/
theorem claim_C2_sorted_run (fs : List Frag)
    (hsort : List.Sorted (· ≤ ·) (fs.map Frag.stage))
    (hel1 : (elVals fs).length ≤ 1) (hid1 : (idVals fs).length ≤ 1)
    (hpe1 : (peVals fs).length ≤ 1) :
    (runFrags Builder.init fs).2 = none ∧
    ((runFrags Builder.init fs).1.stringify).2 =
      optPiece "" (elVals fs).head? ++ optPiece "#" (idVals fs).head?
      ++ String.join ((clsVals fs).map (fun c => "." ++ c))
      ++ String.join ((attrVals fs).map (fun a => "[" ++ a ++ "]"))
      ++ String.join ((pcVals fs).map (fun p => ":" ++ p))
      ++ optPiece "::" (peVals fs).head? := by
  obtain ⟨e1, e2, e3, e4, e5, e6, e7⟩ :=
    runFrags_sorted_ok fs Builder.init hsort
      (fun f _ => by
        show ((List.replicate 6 false).drop (f.stage + 1)).any id = false
        exact any_drop_replicate_false 6 (f.stage + 1))
      hel1 hid1 hpe1 (fun _ => rfl) (fun _ => rfl) (fun _ => rfl)
  refine ⟨e1, ?_⟩
  rw [stringify_snd, e2, e3, e4, e5, e6, e7]
  simp [Builder.init, elim_none_some]

/-- C2 witness: the sorted sequence
`element a; id main; class x; class x; attr k; pseudoClass f; pseudoElement w`
runs without error and renders `a#main.x.x[k]:f::w`. -/
theorem claim_C2_witness :
    List.Sorted (· ≤ ·) (sampleFrags.map Frag.stage) ∧
    (elVals sampleFrags).length ≤ 1 ∧ (idVals sampleFrags).length ≤ 1 ∧
    (peVals sampleFrags).length ≤ 1 ∧
    (runFrags Builder.init sampleFrags).2 = none ∧
    ((runFrags Builder.init sampleFrags).1.stringify).2 = "a#main.x.x[k]:f::w" := by
  refine ⟨by decide, by decide, by decide, by decide, ?_, ?_⟩
  · exact (claim_C2_sorted_run sampleFrags (by decide) (by decide) (by decide)
      (by decide)).1
  · rw [(claim_C2_sorted_run sampleFrags (by decide) (by decide) (by decide)
      (by decide)).2]
    decide

/-- C3 counterexample: a first `element('')` stores the empty string, which
is falsy, so a second `element('a')` raises no error at all — the claim
that a second `element` always raises the duplicate error fails. -/
theorem claim_C3_counterexample :
    ((Builder.init.element "").1.element "a").2 = none ∧
    ((Builder.init.element "").1.element "a").2 ≠ some BuilderError.duplicate := by
  constructor
  · decide
  · decide

/-- C3 (amended): setting `element`, `id`, or `pseudoElement` again raises
the duplicate error whenever the stored value is truthy (a non-empty
string), regardless of the new value and of anything else in the builder;
when the stored value is the empty string the guard does not fire. -/
theorem claim_C3_duplicate (b : Builder) (v : String) :
    (truthy b.sElement = true → (b.element v).2 = some BuilderError.duplicate) ∧
    (truthy b.sId = true → (b.id v).2 = some BuilderError.duplicate) ∧
    (truthy b.sPseudoE = true → (b.pseudoElement v).2 = some BuilderError.duplicate) := by
  refine ⟨fun h => ?_, fun h => ?_, fun h => ?_⟩
  · simp [Builder.element, h]
  · simp [Builder.id, h]
  · simp [Builder.pseudoElement, h]

/-- C3 witness: after `element('a')`, a second `element('x')` raises the
duplicate error. -/
theorem claim_C3_witness :
    truthy ((Builder.init.element "a").1).sElement = true ∧
    (((Builder.init.element "a").1).element "x").2 = some BuilderError.duplicate :=
  ⟨by decide, (claim_C3_duplicate _ "x").1 (by decide)⟩

/-- C4 counterexample: with element value `'a '` the rendered selector is
`'a '`, which ends in whitespace, so the claim's "no leading or trailing
whitespace" conjunct fails for that builder state. -/
theorem claim_C4_counterexample :
    (((Builder.init.element "a ").1.stringify).2) = "a " ∧
    noEdgeWS (((Builder.init.element "a ").1.stringify).2) = false := by
  constructor
  · decide
  · decide

/-- C4 (amended): on every builder state, `render()` returns the fixed-order
concatenation of §4.1 (element as-is, id prefixed `#`, classes prefixed `.`
in insertion order, attributes wrapped in `[ ]`, pseudo-classes prefixed
`:`, pseudo-element prefixed `::`, absent or empty single-valued parts and
empty sequences contributing nothing); the result has no leading or
trailing whitespace provided every stored value is itself free of leading
and trailing whitespace. -/
theorem claim_C4_render (b : Builder) :
    (b.stringify).2 = renderSpec b ∧
    (trimmedVals b = true → noEdgeWS ((b.stringify).2) = true) :=
  ⟨stringify_eq_renderSpec b, fun h => stringify_noEdgeWS b h⟩

/-- C4 witness: the builder holding element `'a'` has trimmed values, agrees
with the spec rendering, and renders without edge whitespace. -/
theorem claim_C4_witness :
    trimmedVals ((Builder.init.element "a").1) = true ∧
    (((Builder.init.element "a").1).stringify).2
      = renderSpec ((Builder.init.element "a").1) ∧
    noEdgeWS ((((Builder.init.element "a").1).stringify).2) = true :=
  ⟨by decide, (claim_C4_render _).1, (claim_C4_render _).2 (by decide)⟩

/-- C5: `combine` renders as left, one space, the symbol verbatim, one
space, right; combinations nest, and with a single-space symbol the outer
join contributes the documented three-space run. -/
theorem claim_C5_combine (A B C : Renderable) (s : String) :
    ((cssCombine A s B).stringify).2
      = A.stringify ++ " " ++ s ++ " " ++ B.stringify ∧
    ((cssCombine ((cssCombine A "~" B).toRenderable) " " C).stringify).2
      = A.stringify ++ " ~ " ++ B.stringify ++ "   " ++ C.stringify := by
  constructor
  · rfl
  · have key : ∀ x y z : String,
        x ++ " " ++ "~" ++ " " ++ y ++ " " ++ " " ++ " " ++ z
          = x ++ " ~ " ++ y ++ "   " ++ z := by
      intro x y z
      rw [show (" ~ " : String) = " " ++ "~" ++ " " from rfl]
      rw [show ("   " : String) = " " ++ " " ++ " " from rfl]
      simp [String.append_assoc]
    exact key A.stringify B.stringify C.stringify

/-- C6: `class`, `attr` and `pseudoClass` append to their sequences, a
repeated equal value is kept twice, and `render()` lists each sequence in
exactly insertion order with its prefix, with no deduplication. -/
theorem claim_C6_multi (b : Builder) (v : String) :
    ((b.«class» v).1.sClass = b.sClass ++ [v]) ∧
    ((b.attr v).1.sAttr = b.sAttr ++ [v]) ∧
    ((b.pseudoClass v).1.sPseudo = b.sPseudo ++ [v]) ∧
    (((b.«class» v).1.«class» v).1.sClass = b.sClass ++ [v, v]) ∧
    ((b.stringify).2 =
      optPiece "" b.sElement ++ optPiece "#" b.sId
      ++ String.join (b.sClass.map (fun c => "." ++ c))
      ++ String.join (b.sAttr.map (fun a => "[" ++ a ++ "]"))
      ++ String.join (b.sPseudo.map (fun p => ":" ++ p))
      ++ optPiece "::" b.sPseudoE) := by
  refine ⟨?_, ?_, ?_, ?_, stringify_snd b⟩
  · simp [Builder.«class», checkState_eq]
  · simp [Builder.attr, checkState_eq]
  · simp [Builder.pseudoClass, checkState_eq]
  · simp [Builder.«class», checkState_eq]

/-- C7 counterexample: a combiner built by the facade is not immutable —
invoking its own `combine` method again overwrites all three stored
components, and later `stringify()` calls observe the new ones. -/
theorem claim_C7_counterexample :
    (Combiner.combine
        (cssCombine (Renderable.sel (Builder.init.element "a").1) "+"
          (Renderable.sel (Builder.init.element "b").1))
        (Renderable.sel (Builder.init.element "x").1) "~"
        (Renderable.sel (Builder.init.element "y").1)).s1
      ≠ (cssCombine (Renderable.sel (Builder.init.element "a").1) "+"
          (Renderable.sel (Builder.init.element "b").1)).s1 ∧
    ((Combiner.combine
        (cssCombine (Renderable.sel (Builder.init.element "a").1) "+"
          (Renderable.sel (Builder.init.element "b").1))
        (Renderable.sel (Builder.init.element "x").1) "~"
        (Renderable.sel (Builder.init.element "y").1)).stringify).2 = "x ~ y" ∧
    ((cssCombine (Renderable.sel (Builder.init.element "a").1) "+"
        (Renderable.sel (Builder.init.element "b").1)).stringify).2 = "a + b" := by
  refine ⟨by decide, by decide, by decide⟩

/-- C7 (amended): a combiner stores exactly the components passed to
`combine`, and `stringify()` never changes them — every render observes the
same three stored components; the object is nevertheless mutable through
its own `combine` method, which overwrites all three. -/
theorem claim_C7_components (c : Combiner) (a b : Renderable) (sym : String) :
    ((c.stringify).1 = c) ∧
    ((c.stringify).2
      = c.s1.stringify ++ " " ++ c.combiner ++ " " ++ c.s2.stringify) ∧
    ((cssCombine a sym b).s1 = a) ∧
    ((cssCombine a sym b).combiner = sym) ∧
    ((cssCombine a sym b).s2 = b) ∧
    ((Combiner.combine c a sym b).s1 = a) :=
  ⟨rfl, rfl, rfl, rfl, rfl, rfl⟩

/-- C8: `stringify()` is read-only on the builder — the builder after the
call is the receiver itself, so a repeated call returns the same string. -/
theorem claim_C8_readonly (b : Builder) :
    ((b.stringify).1 = b) ∧ ((((b.stringify).1).stringify).2 = (b.stringify).2) :=
  ⟨rfl, rfl⟩

/-- C9: when `element`, `id` or `pseudoElement` raises the duplicate error,
the builder is returned exactly as it was — the duplicate check happens
before any mutation, so the error is atomic. -/
theorem claim_C9_atomic (b : Builder) (v : String) :
    ((b.element v).2 = some BuilderError.duplicate → (b.element v).1 = b) ∧
    ((b.id v).2 = some BuilderError.duplicate → (b.id v).1 = b) ∧
    ((b.pseudoElement v).2 = some BuilderError.duplicate → (b.pseudoElement v).1 = b) := by
  refine ⟨fun h => ?_, fun h => ?_, fun h => ?_⟩
  · cases htr : truthy b.sElement with
    | true => simp [Builder.element, htr]
    | false =>
      exfalso
      simp only [Builder.element, htr, Bool.false_eq_true, if_false] at h
      exact checkState_snd_ne_dup _ 0 h
  · cases htr : truthy b.sId with
    | true => simp [Builder.id, htr]
    | false =>
      exfalso
      simp only [Builder.id, htr, Bool.false_eq_true, if_false] at h
      exact checkState_snd_ne_dup _ 1 h
  · cases htr : truthy b.sPseudoE with
    | true => simp [Builder.pseudoElement, htr]
    | false =>
      exfalso
      simp only [Builder.pseudoElement, htr, Bool.false_eq_true, if_false] at h
      exact checkState_snd_ne_dup _ 5 h

/-- C9 witness: a second `element` call errs and leaves the builder equal to
what it was before the call. -/
theorem claim_C9_witness :
    (((Builder.init.element "a").1.element "x").2 = some BuilderError.duplicate) ∧
    (((Builder.init.element "a").1.element "x").1 = (Builder.init.element "a").1) :=
  ⟨by decide, (claim_C9_atomic _ "x").1 (by decide)⟩

/-- C10: the order-violation error is not atomic — whenever a fragment call
reports it, the offending value has already been stored in the builder and
its stage already marked touched, and the returned (post-throw) state keeps
both mutations. -/
theorem claim_C10_nonatomic (b : Builder) (f : Frag)
    (h : (b.applyFrag f).2 = some BuilderError.orderViolation) :
    (b.applyFrag f).1.state.getD f.stage false = true ∧
    (match f with
      | .element v => (b.applyFrag f).1.sElement = some v
      | .id v => (b.applyFrag f).1.sId = some v
      | .cls v => (b.applyFrag f).1.sClass = b.sClass ++ [v]
      | .attr v => (b.applyFrag f).1.sAttr = b.sAttr ++ [v]
      | .pseudoClass v => (b.applyFrag f).1.sPseudo = b.sPseudo ++ [v]
      | .pseudoElement v => (b.applyFrag f).1.sPseudoE = some v) := by
  cases f with
  | element v =>
    cases htr : truthy b.sElement with
    | true => simp [Builder.applyFrag, Builder.element, htr] at h
    | false =>
      simp only [Builder.applyFrag, Builder.element, htr, Bool.false_eq_true,
        if_false] at h ⊢
      rw [checkState_eq] at h ⊢
      have hc : ((({ b with sElement := some v } : Builder).state.set 0 true).drop
          (0 + 1)).any id = true := by
        by_contra hc0
        rw [Bool.not_eq_true] at hc0
        rw [hc0] at h
        simp at h
      have hlen : 0 < b.state.length := by
        have h2 := lt_length_of_drop_any _ _ hc
        simp only [List.length_set] at h2
        omega
      exact ⟨getD_set_self false true b.state 0 hlen, rfl⟩
  | id v =>
    cases htr : truthy b.sId with
    | true => simp [Builder.applyFrag, Builder.id, htr] at h
    | false =>
      simp only [Builder.applyFrag, Builder.id, htr, Bool.false_eq_true,
        if_false] at h ⊢
      rw [checkState_eq] at h ⊢
      have hc : ((({ b with sId := some v } : Builder).state.set 1 true).drop
          (1 + 1)).any id = true := by
        by_contra hc0
        rw [Bool.not_eq_true] at hc0
        rw [hc0] at h
        simp at h
      have hlen : 1 < b.state.length := by
        have h2 := lt_length_of_drop_any _ _ hc
        simp only [List.length_set] at h2
        omega
      exact ⟨getD_set_self false true b.state 1 hlen, rfl⟩
  | cls v =>
    simp only [Builder.applyFrag, Builder.«class»] at h ⊢
    rw [checkState_eq] at h ⊢
    have hc : ((({ b with sClass := b.sClass ++ [v] } : Builder).state.set 2 true).drop
        (2 + 1)).any id = true := by
      by_contra hc0
      rw [Bool.not_eq_true] at hc0
      rw [hc0] at h
      simp at h
    have hlen : 2 < b.state.length := by
      have h2 := lt_length_of_drop_any _ _ hc
      simp only [List.length_set] at h2
      omega
    exact ⟨getD_set_self false true b.state 2 hlen, rfl⟩
  | attr v =>
    simp only [Builder.applyFrag, Builder.attr] at h ⊢
    rw [checkState_eq] at h ⊢
    have hc : ((({ b with sAttr := b.sAttr ++ [v] } : Builder).state.set 3 true).drop
        (3 + 1)).any id = true := by
      by_contra hc0
      rw [Bool.not_eq_true] at hc0
      rw [hc0] at h
      simp at h
    have hlen : 3 < b.state.length := by
      have h2 := lt_length_of_drop_any _ _ hc
      simp only [List.length_set] at h2
      omega
    exact ⟨getD_set_self false true b.state 3 hlen, rfl⟩
  | pseudoClass v =>
    simp only [Builder.applyFrag, Builder.pseudoClass] at h ⊢
    rw [checkState_eq] at h ⊢
    have hc : ((({ b with sPseudo := b.sPseudo ++ [v] } : Builder).state.set 4 true).drop
        (4 + 1)).any id = true := by
      by_contra hc0
      rw [Bool.not_eq_true] at hc0
      rw [hc0] at h
      simp at h
    have hlen : 4 < b.state.length := by
      have h2 := lt_length_of_drop_any _ _ hc
      simp only [List.length_set] at h2
      omega
    exact ⟨getD_set_self false true b.state 4 hlen, rfl⟩
  | pseudoElement v =>
    cases htr : truthy b.sPseudoE with
    | true => simp [Builder.applyFrag, Builder.pseudoElement, htr] at h
    | false =>
      simp only [Builder.applyFrag, Builder.pseudoElement, htr, Bool.false_eq_true,
        if_false] at h ⊢
      rw [checkState_eq] at h ⊢
      have hc : ((({ b with sPseudoE := some v } : Builder).state.set 5 true).drop
          (5 + 1)).any id = true := by
        by_contra hc0
        rw [Bool.not_eq_true] at hc0
        rw [hc0] at h
        simp at h
      have hlen : 5 < b.state.length := by
        have h2 := lt_length_of_drop_any _ _ hc
        simp only [List.length_set] at h2
        omega
      exact ⟨getD_set_self false true b.state 5 hlen, rfl⟩

/-- C10 witness: after `id('m')`, calling `element('a')` raises the
order-violation error while the value `'a'` is stored and stage 0 is marked
touched in the post-error state. -/
theorem claim_C10_witness :
    (((Builder.init.id "m").1.applyFrag (Frag.element "a")).2
      = some BuilderError.orderViolation) ∧
    (((Builder.init.id "m").1.applyFrag (Frag.element "a")).1.state.getD
      (Frag.element "a").stage false = true) ∧
    (((Builder.init.id "m").1.applyFrag (Frag.element "a")).1.sElement = some "a") := by
  have h := claim_C10_nonatomic ((Builder.init.id "m").1) (Frag.element "a") (by decide)
  exact ⟨by decide, h.1, h.2⟩
